import Mathlib

/-!
Verification of the reactive-cell primitive `Blaze.Var`
(src/packages/blaze/var.js).

The cell itself (constructor, `get`, `set`, `toString`) is translated
directly from the JavaScript source.  The dependency-tracking engine
(`Deps.Dependency`, `Deps.autorun`, `Deps.active`) and the ambient
controller helpers (`Blaze.currentController`,
`Blaze.withCurrentController`) live outside this repository snapshot, so
they are modelled from the interface the spec gives for them (spec section 6).

JavaScript values are embedded as `JSV α`: either the JS `null` (the
initial content of a fresh cell) or a value of a parameter type `α`,
whose decidable equality stands for the strict-equality operator `===`
(reference identity on objects is obtained by giving `α` an identity
component).  A user-supplied equality function may throw, so it returns
`Except JsError Bool`, the `Bool` being the truthiness of its result.

Effects are made explicit: `set` returns the cell state after the call,
the list of computations invalidated by the call, and the exception
propagated by the call, if any.  `get` and `toString` additionally take
the identity of the currently active computation (the engine global
`Deps.active` / `Deps.currentComputation`).
-/

/-- A JavaScript exception, by its message. -/
inductive JsError where
  | error (msg : String)
deriving DecidableEq, Repr

/-- The ambient controller value (`Blaze.currentController`): an opaque
context value, possibly absent. -/
abbrev Ctrl := Option Nat

/-- The slice of the tracking-engine state the cell interacts with:
which computation is currently running (`Deps.active` is its presence),
the ambient controller, and a supply of fresh computation ids. -/
structure EngineState where
  active : Option Nat
  controller : Ctrl
  nextCompId : Nat
deriving DecidableEq, Repr

/-- Modelled from the spec: a DependencySource is a per-cell registry of
the computations that have read the cell. -/
structure Dependency where
  dependents : List Nat
deriving DecidableEq, Repr

/-- Modelled from the spec: registration of the current reader
(`Deps.Dependency#depend`), which is missing from this snapshot.
Registers the active computation as a dependent; idempotent, so
registering the same computation twice has no duplicate effect. -/
def Dependency.depend (d : Dependency) (c : Nat) : Dependency :=
  if c ∈ d.dependents then d else { dependents := c :: d.dependents }

/-- Modelled from the spec: invalidation (`Deps.Dependency#changed`),
which is missing from this snapshot.  Invalidates every currently
registered dependent computation; the returned list is the computations
invalidated by the call. -/
def Dependency.changed (d : Dependency) : List Nat :=
  d.dependents

/-- A JavaScript value: the JS `null`, or a value of the carrier `α`.
Decidable equality on `JSV α` models the strict-equality operator. -/
inductive JSV (α : Type) where
  | jnull
  | val (a : α)
deriving DecidableEq, Repr

/-- The string JS produces when coercing a value for concatenation. -/
def JSV.jsToString [ToString α] : JSV α → String
  | .jnull => "null"
  | .val a => toString a

/-- The state of a `Blaze.Var` cell, with the field names of the source:
`equalsFunc`, `curValue`, `inited`, `dep`, `computation` (the id of the
self-computation of a producer-constructed cell). -/
structure Var (α : Type) where
  equalsFunc : Option (JSV α → JSV α → Except JsError Bool)
  curValue : JSV α
  inited : Bool
  dep : Dependency
  computation : Option Nat

/-- The observable outcome of one `set` call: the cell state after the
call, the computations invalidated during the call, and the exception
the call propagated, if any. -/
structure SetResult (α : Type) where
  self : Var α
  invalidated : List Nat
  thrown : Option JsError

/-- Blaze.Var#set, translated statement by statement from the source:
read `equalsFunc` and `curValue`; if `inited` and the equality test
(custom `equalsFunc` if present, otherwise strict equality) accepts the
new value, return without touching anything; otherwise store the new
value and call `dep.changed()`.  The equality function is consulted only
when `inited` holds, and no field is written before it runs, so a throw
leaves the cell exactly as it was. -/
def Var.set [DecidableEq α] (v : Var α) (newValue : JSV α) : SetResult α :=
  let oldValue := v.curValue
  if v.inited then
    match v.equalsFunc with
    | some equals =>
      match equals newValue oldValue with
      | .error e => { self := v, invalidated := [], thrown := some e }
      | .ok true => { self := v, invalidated := [], thrown := none }
      | .ok false =>
        { self := { v with curValue := newValue },
          invalidated := v.dep.changed, thrown := none }
    | none =>
      if newValue = oldValue then
        { self := v, invalidated := [], thrown := none }
      else
        { self := { v with curValue := newValue },
          invalidated := v.dep.changed, thrown := none }
  else
    { self := { v with curValue := newValue },
      invalidated := v.dep.changed, thrown := none }

/-- Blaze.Var#get, from the source: if a computation is active, register
it with the cell's dependency, then return the current value. -/
def Var.get (v : Var α) (active : Option Nat) : JSV α × Var α :=
  match active with
  | some c => (v.curValue, { v with dep := v.dep.depend c })
  | none => (v.curValue, v)

/-- Blaze.Var#toString, from the source: a tracked `get` wrapped in the
cell identifier brackets. -/
def Var.jsString [ToString α] (v : Var α) (active : Option Nat) :
    String × Var α :=
  let r := v.get active
  ("Var\x7b" ++ r.1.jsToString ++ "\x7d", r.2)

/-- The changed test of the claims, matching the negation of the
early-return guard of `Var.set`:
`!inited || (equals ? !equals(newValue, oldValue) : newValue !== oldValue)`,
propagating an exception of the equality function. -/
def changedCond [DecidableEq α] (v : Var α) (newValue : JSV α) :
    Except JsError Bool :=
  if v.inited then
    match v.equalsFunc with
    | some equals => (equals newValue v.curValue).map (fun b => !b)
    | none => .ok (decide (newValue ≠ v.curValue))
  else
    .ok true

/-- The argument of the constructor: the source dispatches on
`typeof initializer === 'function'`, so the argument is either a plain
value or a producer function.  A producer reads the engine state (its
reads of other cells are outside this one-cell model). -/
inductive VarInit (α : Type) where
  | value (v0 : JSV α)
  | producer (f : EngineState → JSV α)

/-- One run of the self-computation of a producer-constructed cell,
from the source:
`Blaze.withCurrentController(controller, function () { self.set(initializer()); })`.
`Blaze.withCurrentController` is missing from this snapshot and is
modelled from the spec: it installs the given ambient controller, runs
the body, and restores the previous controller afterwards. -/
def varCompBody [DecidableEq α] (controller : Ctrl) (f : EngineState → JSV α)
    (self : Var α) (e : EngineState) : SetResult α × EngineState :=
  let saved := e.controller
  let eIn := { e with controller := controller }
  let r := self.set (f eIn)
  (r, { eIn with controller := saved })

/-- The self-computation a producer-mode construction creates: its
fresh id, the computation it nests under, the controller captured at
construction time, and the body the engine runs on every rerun. -/
structure CompInfo (α : Type) where
  id : Nat
  parent : Nat
  capturedController : Ctrl
  runBody : Var α → EngineState → SetResult α × EngineState

/-- The outcome of a completed construction: the cell, the engine state
after the constructor returns, the computations invalidated during
construction, and the created self-computation, when there is one. -/
structure ConstructOk (α : Type) where
  var : Var α
  engine : EngineState
  invalidated : List Nat
  created : Option (CompInfo α)

/-- The body of the `Blaze.Var` constructor as entered through `new`
(the `instanceof` guard passes), translated from the source.  Fields
start as `equalsFunc`, `curValue = null`, `inited = false`, a fresh
dependency, `computation = null`.  A producer argument requires an
active computation, else the constructor throws; otherwise it captures
`Blaze.currentController` and starts a `Deps.autorun` whose body is
`varCompBody`.  `Deps.autorun` is missing from this snapshot and is
modelled from the spec: it allocates a fresh computation nested under
the active one, runs the body once immediately with the new computation
active, and reruns it on invalidation (the reruns are `runBody` in the
result).  A value argument is fed through `self.set`.  Finally
`inited` is set to true.  (`Blaze._wrapAutorun` is a diagnostic hint
with no behavioural requirement, and is not modelled.) -/
def BlazeVar.construct [DecidableEq α] (arg : VarInit α)
    (equalsFunc : Option (JSV α → JSV α → Except JsError Bool))
    (e : EngineState) : Except JsError (ConstructOk α) :=
  let self : Var α :=
    { equalsFunc := equalsFunc, curValue := .jnull, inited := false,
      dep := { dependents := [] }, computation := none }
  match arg with
  | .producer f =>
    match e.active with
    | none =>
      .error (.error "Can only create a Blaze.Var(function...) inside a Computation")
    | some parent =>
      let controller := e.controller
      let c := e.nextCompId
      let eRun : EngineState := { e with active := some c, nextCompId := c + 1 }
      let run := varCompBody controller f self eRun
      let eOut : EngineState := { run.2 with active := e.active }
      match run.1.thrown with
      | some err => .error err
      | none =>
        .ok { var := { run.1.self with computation := some c, inited := true },
              engine := eOut,
              invalidated := run.1.invalidated,
              created := some { id := c, parent := parent,
                                capturedController := controller,
                                runBody := varCompBody controller f } }
  | .value v0 =>
    let r := self.set v0
    match r.thrown with
    | some err => .error err
    | none =>
      .ok { var := { r.self with inited := true }, engine := e,
            invalidated := r.invalidated, created := none }

/-- Invocation of `Blaze.Var` as a plain function call, from the source:
`this` is then not an instance, so the guard
`if (! (self instanceof Blaze.Var)) return new Blaze.Var(initializer, equalsFunc);`
takes effect and the result is that of the `new` invocation. -/
def BlazeVar.call [DecidableEq α] (arg : VarInit α)
    (equalsFunc : Option (JSV α → JSV α → Except JsError Bool))
    (e : EngineState) : Except JsError (ConstructOk α) :=
  BlazeVar.construct arg equalsFunc e

/-- The equality function of the example in the spec:
`equals(a, b) = (a.id === b.id)` on records embedded as pairs (id, n). -/
def idEquals : JSV (Int × Int) → JSV (Int × Int) → Except JsError Bool
  | .val a, .val b => .ok (decide (a.1 = b.1))
  | _, _ => .ok false

/-- An equality function that always throws, for a witness below. -/
def throwingEquals : JSV Int → JSV Int → Except JsError Bool :=
  fun _ _ => .error (.error "boom")

/-- The cell states reachable by client code: the result of a completed
construction, followed by any number of `set` and `get` calls. -/
inductive Var.Reachable [DecidableEq α] : Var α → Prop where
  | constructed (arg : VarInit α) (equalsFunc) (e : EngineState)
      (r : ConstructOk α) (h : BlazeVar.construct arg equalsFunc e = .ok r) :
      Var.Reachable r.var
  | step_set (v : Var α) (x : JSV α) (h : Var.Reachable v) :
      Var.Reachable (v.set x).self
  | step_get (v : Var α) (a : Option Nat) (h : Var.Reachable v) :
      Var.Reachable (v.get a).2

/-- The set call never clears `inited`. -/
theorem Var.set_inited [DecidableEq α] (v : Var α) (x : JSV α) :
    (v.set x).self.inited = v.inited := by
  unfold Var.set
  split
  · cases h : v.equalsFunc with
    | some equals =>
      simp only [h]
      rcases he : equals x v.curValue with e | b
      · simp [he]
      · cases b <;> simp [he]
    | none => simp only [h]; split <;> simp
  · simp

/-- The get call never clears `inited`. -/
theorem Var.get_inited (v : Var α) (a : Option Nat) :
    (v.get a).2.inited = v.inited := by
  unfold Var.get
  cases a <;> simp

/-- A completed construction always delivers an initialized cell. -/
theorem BlazeVar.construct_inited [DecidableEq α] (arg : VarInit α)
    (equalsFunc) (e : EngineState) (r : ConstructOk α)
    (h : BlazeVar.construct arg equalsFunc e = .ok r) :
    r.var.inited = true := by
  unfold BlazeVar.construct at h
  rcases arg with v0 | f
  · simp only at h
    split at h
    · exact absurd h (by simp)
    · simp only [Except.ok.injEq] at h
      subst h
      rfl
  · simp only at h
    split at h
    · exact absurd h (by simp)
    · split at h
      · exact absurd h (by simp)
      · simp only [Except.ok.injEq] at h
        subst h
        rfl

/-- Every cell state client code can reach is initialized: `inited` is
established by the constructor and never cleared afterwards.  This is
what entitles the set-theorems below to assume `inited = true`. -/
theorem Var.Reachable.inited [DecidableEq α] (v : Var α)
    (h : Var.Reachable v) : v.inited = true := by
  induction h with
  | constructed arg equalsFunc e r hc => exact BlazeVar.construct_inited arg equalsFunc e r hc
  | step_set v x h ih => rw [Var.set_inited]; exact ih
  | step_get v a h ih => rw [Var.get_inited]; exact ih

/-- C1: for every cell (every reachable cell is initialized, by
`Var.Reachable.inited`) and every set call for which the changed test
holds, after the call the stored value is the new value, the cell is
still initialized, and exactly the computations registered in the
dependency have been invalidated.  The body of the set never assigns
`inited` itself; the field stays true because it was true before. -/
theorem set_changed_stores_and_invalidates [DecidableEq α] (v : Var α)
    (newValue : JSV α) (hin : v.inited = true)
    (hch : changedCond v newValue = .ok true) :
    v.set newValue = { self := { v with curValue := newValue },
                       invalidated := v.dep.dependents, thrown := none }
    ∧ (v.set newValue).self.inited = true := by
  have h1 : v.set newValue = { self := { v with curValue := newValue },
                               invalidated := v.dep.dependents, thrown := none } := by
    unfold Var.set changedCond at *
    simp only [hin, if_true] at hch ⊢
    cases h : v.equalsFunc with
    | none =>
      simp only [h] at hch ⊢
      have hne : ¬(newValue = v.curValue) := by simpa using hch
      simp [hne, Dependency.changed]
    | some equals =>
      simp only [h] at hch ⊢
      rcases he : equals newValue v.curValue with e | b
      · rw [he] at hch
        simp [Except.map] at hch
      · rw [he] at hch
        simp [Except.map] at hch
        cases b
        · simp [he, Dependency.changed]
        · simp at hch
  refine ⟨h1, ?_⟩
  rw [h1]
  exact hin

/-- Witness for set_changed_stores_and_invalidates at a concrete cell
with two registered dependents and a genuinely new value. -/
theorem set_changed_stores_and_invalidates_witness :
    Var.set (⟨none, .val 1, true, ⟨[4, 7]⟩, none⟩ : Var Int) (.val 2)
      = { self := ⟨none, .val 2, true, ⟨[4, 7]⟩, none⟩,
          invalidated := [4, 7], thrown := none }
    ∧ (Var.set (⟨none, .val 1, true, ⟨[4, 7]⟩, none⟩ : Var Int) (.val 2)).self.inited = true :=
  set_changed_stores_and_invalidates _ _ rfl rfl

/-- C2: for every initialized cell with the default equality, once a
set call has established a value, a second set call with the same value
is a no-op: the resulting cell state is the very record the first call
produced, and the invalidated list of the second call is empty. -/
theorem set_same_value_noop [DecidableEq α] (v : Var α) (x : JSV α)
    (heq : v.equalsFunc = none) (hin : v.inited = true) :
    (v.set x).self.curValue = x
    ∧ (v.set x).self.set x
        = { self := (v.set x).self, invalidated := [], thrown := none } := by
  have hset : ∀ w : Var α, w.equalsFunc = none → w.inited = true →
      w.curValue = x → w.set x = { self := w, invalidated := [], thrown := none } := by
    intro w he hi hc
    unfold Var.set
    simp [hi, he, hc]
  by_cases hx : x = v.curValue
  · have h1 : v.set x = { self := v, invalidated := [], thrown := none } :=
      hset v heq hin hx.symm
    rw [h1]
    exact ⟨hx.symm, hset v heq hin hx.symm⟩
  · have h1 : v.set x = { self := { v with curValue := x },
                          invalidated := v.dep.changed, thrown := none } := by
      unfold Var.set
      simp [hin, heq, hx]
    rw [h1]
    exact ⟨rfl, hset _ heq hin rfl⟩

/-- Witness for set_same_value_noop: a cell that already stores 5 with
one dependent registered; writing 5 again invalidates nothing. -/
theorem set_same_value_noop_witness :
    (Var.set (⟨none, .val 5, true, ⟨[3]⟩, none⟩ : Var Int) (.val 5)).self.curValue = .val 5
    ∧ (Var.set (⟨none, .val 5, true, ⟨[3]⟩, none⟩ : Var Int) (.val 5)).self.set (.val 5)
        = { self := (Var.set (⟨none, .val 5, true, ⟨[3]⟩, none⟩ : Var Int) (.val 5)).self,
            invalidated := [], thrown := none } :=
  set_same_value_noop _ _ rfl rfl

/-- C3: for every initialized cell with a custom equality function, a
set call whose new value the equality function accepts (truthy result)
changes nothing and invalidates nobody, and a set call whose new value
it rejects (falsy result) stores the new value and invalidates every
registered dependent. -/
theorem set_custom_equality_gates [DecidableEq α] (v : Var α)
    (f : JSV α → JSV α → Except JsError Bool) (newValue : JSV α)
    (heq : v.equalsFunc = some f) (hin : v.inited = true) :
    (f newValue v.curValue = .ok true →
      v.set newValue = { self := v, invalidated := [], thrown := none })
    ∧ (f newValue v.curValue = .ok false →
      v.set newValue = { self := { v with curValue := newValue },
                         invalidated := v.dep.dependents, thrown := none }) := by
  constructor <;> intro hf <;> unfold Var.set <;>
    simp [hin, heq, hf, Dependency.changed]

/-- Witness for set_custom_equality_gates, at the example of the spec:
under id-equality, after (id 1, n 1), writing (id 1, n 2) invalidates
nothing, while writing (id 2, n 2) invalidates the dependent. -/
theorem set_custom_equality_gates_witness :
    Var.set (⟨some idEquals, .val (1, 1), true, ⟨[7]⟩, none⟩ : Var (Int × Int)) (.val (1, 2))
      = { self := ⟨some idEquals, .val (1, 1), true, ⟨[7]⟩, none⟩,
          invalidated := [], thrown := none }
    ∧ Var.set (⟨some idEquals, .val (1, 1), true, ⟨[7]⟩, none⟩ : Var (Int × Int)) (.val (2, 2))
      = { self := ⟨some idEquals, .val (2, 2), true, ⟨[7]⟩, none⟩,
          invalidated := [7], thrown := none } :=
  ⟨(set_custom_equality_gates _ idEquals _ rfl rfl).1 rfl,
   (set_custom_equality_gates _ idEquals _ rfl rfl).2 rfl⟩

/-- C5: for every initialized cell, when the user-supplied equality
function throws during a set call, the very exception it threw
propagates out of the call, the cell state is the unchanged input cell
(no partial mutation happens before the equality check), and nobody is
invalidated. -/
theorem set_equality_throw_propagates [DecidableEq α] (v : Var α)
    (f : JSV α → JSV α → Except JsError Bool) (newValue : JSV α)
    (err : JsError) (heq : v.equalsFunc = some f) (hin : v.inited = true)
    (hthrow : f newValue v.curValue = .error err) :
    v.set newValue = { self := v, invalidated := [], thrown := some err } := by
  unfold Var.set
  simp [hin, heq, hthrow]

/-- Registration always leaves the registering computation among the
dependents. -/
theorem Dependency.mem_depend (d : Dependency) (c : Nat) :
    c ∈ (d.depend c).dependents := by
  by_cases hc : c ∈ d.dependents <;> simp [Dependency.depend, hc]

/-- Registration is idempotent: registering an already registered
computation changes nothing. -/
theorem Dependency.depend_idem (d : Dependency) (c : Nat) :
    (d.depend c).depend c = d.depend c := by
  by_cases hc : c ∈ d.dependents <;> simp [Dependency.depend, hc]

/-- C6: get returns the current value and never fails (it is a total
function).  With no active computation the cell comes back entirely
unchanged.  With an active computation c, the result differs from the
input cell only in that c is registered with the dependency — value,
inited flag, equality function and self-computation are untouched, and
the dependency object itself only gains the registration — and the
registration is idempotent: a second get by the same computation within
the run changes nothing further. -/
theorem get_returns_value_and_registers (α : Type) (v : Var α) (c : Nat) :
    (v.get none).1 = v.curValue ∧ (v.get none).2 = v
    ∧ (v.get (some c)).1 = v.curValue
    ∧ (v.get (some c)).2 = { v with dep := v.dep.depend c }
    ∧ c ∈ (v.get (some c)).2.dep.dependents
    ∧ ((v.get (some c)).2.get (some c)).2 = (v.get (some c)).2 := by
  refine ⟨rfl, rfl, rfl, rfl, Dependency.mem_depend v.dep c, ?_⟩
  simp [Var.get, Dependency.depend_idem]

/-- C9: toString returns the cell identifier wrapping the string form
of the current value, and its side effect is exactly that of a tracked
get, so an active computation becomes a dependent of the cell. -/
theorem jsString_formats_and_tracks (α : Type) [ToString α] (v : Var α)
    (c : Nat) :
    (v.jsString none).1 = "Var\x7b" ++ v.curValue.jsToString ++ "\x7d"
    ∧ (v.jsString none).2 = (v.get none).2
    ∧ (v.jsString (some c)).1 = "Var\x7b" ++ v.curValue.jsToString ++ "\x7d"
    ∧ (v.jsString (some c)).2 = (v.get (some c)).2
    ∧ c ∈ (v.jsString (some c)).2.dep.dependents :=
  ⟨rfl, rfl, rfl, rfl, Dependency.mem_depend v.dep c⟩

/-- C4: constructing a cell from a producer function while no
computation is active fails with the precondition error of the source;
the error result carries no cell, so no partially initialized cell
state escapes to the caller. -/
theorem construct_producer_requires_computation [DecidableEq α]
    (f : EngineState → JSV α)
    (equalsFunc : Option (JSV α → JSV α → Except JsError Bool))
    (ctrl : Ctrl) (n : Nat) :
    BlazeVar.construct (.producer f) equalsFunc
        { active := none, controller := ctrl, nextCompId := n }
      = .error (.error "Can only create a Blaze.Var(function...) inside a Computation") :=
  rfl

/-- C7: constructing a cell from a producer while computation p is
active succeeds, captures the ambient controller at construction time,
creates a fresh computation nested under p, and runs it once
immediately: the producer sees the captured controller and the new
computation active, and its result, fed through set, becomes the
stored value of the initialized cell.  Moreover the rerun body the
computation carries, applied to any cell state and engine state,
installs the captured controller for the duration of the run, feeds
the producer result through set, and restores the previous controller
afterwards. -/
theorem construct_producer_captures_and_runs [DecidableEq α]
    (f : EngineState → JSV α)
    (equalsFunc : Option (JSV α → JSV α → Except JsError Bool))
    (p : Nat) (ctrl : Ctrl) (n : Nat) :
    BlazeVar.construct (.producer f) equalsFunc
        { active := some p, controller := ctrl, nextCompId := n }
      = .ok { var := { equalsFunc := equalsFunc,
                       curValue := f { active := some n, controller := ctrl,
                                       nextCompId := n + 1 },
                       inited := true, dep := { dependents := [] },
                       computation := some n },
              engine := { active := some p, controller := ctrl,
                          nextCompId := n + 1 },
              invalidated := [],
              created := some { id := n, parent := p,
                                capturedController := ctrl,
                                runBody := varCompBody ctrl f } }
    ∧ (∀ (w : Var α) (e2 : EngineState),
        varCompBody ctrl f w e2
          = (w.set (f { e2 with controller := ctrl }), e2)) :=
  ⟨rfl, fun _ _ => rfl⟩

/-- C8: construction from a plain value stores it without consulting
the equality function (any equality function, even an always-throwing
one, gives the same successful result), marks the cell initialized,
performs no invalidation and throws nothing; under the default
equality, a subsequent set of the same value on the constructed cell
is then a no-op. -/
theorem construct_value_first_set [DecidableEq α] (v0 : JSV α)
    (e : EngineState) :
    (∀ equalsFunc, BlazeVar.construct (.value v0) equalsFunc e
      = .ok { var := { equalsFunc := equalsFunc, curValue := v0,
                       inited := true, dep := { dependents := [] },
                       computation := none },
              engine := e, invalidated := [], created := none })
    ∧ Var.set { equalsFunc := none, curValue := v0, inited := true,
                dep := { dependents := [] }, computation := none } v0
      = { self := { equalsFunc := none, curValue := v0, inited := true,
                    dep := { dependents := [] }, computation := none },
          invalidated := [], thrown := none } := by
  refine ⟨fun equalsFunc => rfl, ?_⟩
  simp [Var.set]

/-- C10: invoking Blaze.Var as a plain function call goes through the
instanceof guard, which delegates to the new-invocation of the
constructor, so for every argument pair and engine state the two
invocations produce identical results. -/
theorem call_without_new_equals_new [DecidableEq α] (arg : VarInit α)
    (equalsFunc : Option (JSV α → JSV α → Except JsError Bool))
    (e : EngineState) :
    BlazeVar.call arg equalsFunc e = BlazeVar.construct arg equalsFunc e :=
  rfl

/-- Witness for set_equality_throw_propagates at a concrete throwing
equality function: the message comes out unmodified, the value stays. -/
theorem set_equality_throw_propagates_witness :
    Var.set (⟨some throwingEquals, .val 1, true, ⟨[2]⟩, none⟩ : Var Int) (.val 9)
      = { self := ⟨some throwingEquals, .val 1, true, ⟨[2]⟩, none⟩,
          invalidated := [], thrown := some (.error "boom") } :=
  set_equality_throw_propagates _ throwingEquals _ _ rfl rfl rfl
